import Mathlib

/-!
# Verification of the Direct Access API simulator's job lifecycle layer

This development embeds, in Lean 4, the job record store and job lifecycle
operations of the Direct Access API simulator
(direct_access_client/daa_sim/daa_service.py and v1/job.py) and proves
properties of the embedded operations.

Modelling conventions:
* A Python job-status dict is modelled by the structure JobRecord whose
  fields are Option-valued: a key absent from the dict is a none field.
* The jobs directory (one JSON file per job id) is modelled by an
  association list from job id to the parsed record; file existence is
  key membership.  The jobs directory itself always exists (it is created
  in the DAAService constructor), so the isdir guards of the source are
  always true and are not modelled.
* Raised exceptions are modelled with Except; a function returns
  Except.error e exactly where the Python raises, and in that case the
  store is unchanged (the Python writes nothing before raising).
* Wall-clock timestamps are passed in explicitly as an opaque string
  (the ISO-format instant produced by datetime.now).
* The byte-level file-write mechanics of the update path (open modes w
  and r+, seek, truncate) are modelled separately at the string level in
  the FileLayer section below.
-/

namespace DaaSim

/-- A job status document (a Python dict).  A field that is none models a
key absent from the dict.  Fields mirror the keys used by daa_service.py
and the v1.models.Job request model; storage-location descriptors do not
influence the record-store logic and are not carried in the record. -/
structure JobRecord where
  id : String
  backend : Option String := none
  program_id : Option String := none
  log_level : Option String := none
  timeout_secs : Option Int := none
  /-- the usage key: none when absent, some none for the empty dict that
  execute_job assigns before creating the record, some (some n) for the
  quantum_nanoseconds entry the worker assigns. -/
  usage : Option (Option Int) := none
  status : Option String := none
  created_time : Option String := none
  end_time : Option String := none
  reason_message : Option String := none
  reason_code : Option Int := none
  deriving Repr, DecidableEq

/-- Errors raised by the service layer (errors.py) together with the
built-in Python exceptions the service code can raise. -/
inductive DAAError where
  | DuplicateJobError (job_id : String)
  | JobNotFoundError (job_id : String)
  | JobNotCancellableError (job_id : String)
  | UnableToDeleteJobInNonTerminalStateError (job_id : String)
  | BackendNotFoundError (backend : String)
  | InvalidInputError (message : String)
  | ExecutionLanesLimitReachedError (backend : String)
  /-- the ValueError raised by _job_status when the on-disk status does
  not equal expected_prev_status. -/
  | StatusNotExpectedError (job_id actual expected : String)
  /-- backend not in available_backends at the facade (HTTP 400). -/
  | BackendNotAvailable (backend : String)
  /-- Python KeyError: a required dict key is missing. -/
  | KeyError (key : String)
  /-- Python TypeError, e.g. iterating or indexing a non-container. -/
  | TypeError (message : String)
  /-- Python IndexError on an empty list. -/
  | IndexError (message : String)
  deriving Repr, DecidableEq

/-- The jobs directory: one entry per job id, holding the parsed content
of that job's status file.  Keys are unique. -/
abbrev Store := List (String × JobRecord)

/-- File lookup by job id (job_status_file.is_file + json.load). -/
def Store.lookup (s : Store) (job_id : String) : Option JobRecord :=
  match s with
  | [] => none
  | (k, v) :: rest => if k = job_id then some v else Store.lookup rest job_id

/-- Write the status file of a job id: replace the entry if the file
exists, otherwise add one. -/
def Store.set (s : Store) (job_id : String) (r : JobRecord) : Store :=
  match s with
  | [] => [(job_id, r)]
  | (k, v) :: rest =>
      if k = job_id then (job_id, r) :: rest else (k, v) :: Store.set rest job_id r

/-- os.remove of a job's status file. -/
def Store.erase (s : Store) (job_id : String) : Store :=
  match s with
  | [] => []
  | (k, v) :: rest =>
      if k = job_id then rest else (k, v) :: Store.erase rest job_id

/-- Python truthiness of an optional string argument (if not status / if
reason_message / if expected_prev_status): absent and the empty string
are falsy. -/
def pyTruthy : Option String → Bool
  | none => false
  | some s => s ≠ ""

/-- Python truthiness of an optional int argument (if reason_code):
absent and 0 are falsy. -/
def pyTruthyInt : Option Int → Bool
  | none => false
  | some n => n ≠ 0

/-- The terminal statuses of the job state machine, as listed in
_job_status, delete_job and cancel_job. -/
def terminalStatuses : List String := ["Completed", "Failed", "Cancelled"]

/-- The not-found sentinel returned by the read path of _job_status:
a dict holding only the id and status NA. -/
def naRecord (job_id : String) : JobRecord := { id := job_id, status := some "NA" }

/-- The in-place mutation of the job dict performed by _job_status
(daa_service.py lines 502-514) before the file is written: set status,
stamp created_time on creation of a Running record, stamp end_time on a
terminal status, and copy the truthy reason arguments. -/
def mergeJob (job : JobRecord) (status : String) (reason_message : Option String)
    (reason_code : Option Int) (create : Bool) (now : String) : JobRecord :=
  let j := { job with status := some status }
  let j := if create ∧ status = "Running" then { j with created_time := some now } else j
  let j := if status ∈ terminalStatuses then { j with end_time := some now } else j
  let j := if pyTruthy reason_message then { j with reason_message := reason_message } else j
  let j := if pyTruthyInt reason_code then { j with reason_code := reason_code } else j
  j

/-- Embedding of DAAService._job_status (daa_service.py lines 482-530).
Returns the store after the call together with the record the call
returns (the read record on the read path, the merged record on the
write path).  The create-on-existing-file case raises DuplicateJobError;
the update path with a truthy expected_prev_status raises ValueError
when the on-disk status differs.  The service is assumed active. -/
def jobStatus (store : Store) (job : JobRecord) (status : Option String)
    (expected_prev_status : Option String) (reason_message : Option String)
    (reason_code : Option Int) (create : Bool) (now : String) :
    Except DAAError (Store × JobRecord) :=
  if ¬ pyTruthy status then
    -- read path: sentinel when the file does not exist, else the file content
    match Store.lookup store job.id with
    | none => .ok (store, naRecord job.id)
    | some r => .ok (store, r)
  else
    let st := status.getD ""
    if create ∧ (Store.lookup store job.id).isSome then
      .error (.DuplicateJobError job.id)
    else
      let merged := mergeJob job st reason_message reason_code create now
      match Store.lookup store job.id with
      | none =>
          -- create or not job_status_file.exists(): mode w write
          .ok (Store.set store job.id merged, merged)
      | some prev =>
          -- here create = false (a true create on an existing file errored
          -- above); mode r+ update of the existing file
          if pyTruthy expected_prev_status then
            if prev.status = expected_prev_status then
              .ok (Store.set store job.id merged, merged)
            else
              .error (.StatusNotExpectedError job.id (prev.status.getD "")
                (expected_prev_status.getD ""))
          else
            .ok (Store.set store job.id merged, merged)

/-- Embedding of DAAService.get_job_status: the read path of
_job_status. -/
def getJobStatus (store : Store) (job_id : String) : JobRecord :=
  match Store.lookup store job_id with
  | none => naRecord job_id
  | some r => r

example :
    jobStatus [] { id := "j1" } (some "Running") none none none true "t0" =
      .ok ([("j1", { id := "j1", status := some "Running", created_time := some "t0" })],
        { id := "j1", status := some "Running", created_time := some "t0" }) := by
  rfl

/-- Embedding of DAAService.get_jobs (daa_service.py lines 538-552): read
every status file under the jobs directory and return the records sorted
ascending by created_time.  Python's list.sort key function raises
KeyError as soon as one record lacks the created_time key. -/
def getJobs (store : Store) : Except DAAError (List JobRecord) :=
  let jobs := store.map (fun kv => kv.2)
  if jobs.all (fun r => r.created_time.isSome) then
    .ok (jobs.mergeSort
      (fun a b => decide (a.created_time.getD "" ≤ b.created_time.getD "")))
  else
    .error (.KeyError "created_time")

/-- Embedding of DAAService.delete_job (daa_service.py lines 554-581).
The worker-handle cleanup (mp_workers) is process bookkeeping with no
effect on the job store; sequentially the final os.remove cannot hit
FileNotFoundError because the status read just found the file. -/
def deleteJob (store : Store) (job_id : String) : Except DAAError Store :=
  let job_status := getJobStatus store job_id
  if job_status.status = some "NA" then
    .error (.JobNotFoundError job_id)
  else if ¬ (job_status.status.getD "" ∈ terminalStatuses) then
    .error (.UnableToDeleteJobInNonTerminalStateError job_id)
  else
    .ok (Store.erase store job_id)

/-- Embedding of DAAService.cancel_job (daa_service.py lines 583-608).
Termination of a spawned worker process is OS bookkeeping with no effect
on the job store; the final transition passes the record just read as
the job dict, with expected_prev_status Running. -/
def cancelJob (store : Store) (job_id : String) (now : String) : Except DAAError Store :=
  let job_status := getJobStatus store job_id
  if job_status.status = some "NA" then
    .error (.JobNotFoundError job_id)
  else if job_status.status.getD "" ∈ terminalStatuses then
    .error (.JobNotCancellableError job_id)
  else
    match jobStatus store job_status (some "Cancelled") (some "Running") none none false now with
    | .error e => .error e
    | .ok sr => .ok sr.1

/-- Result of execute_job: the ok flag of the returned dict, the final
store, and the store after each job_status write performed by the call,
in source order (so that transient states are visible). -/
structure ExecuteJobResult where
  ok : Bool
  store : Store
  trace : List Store
  deriving Repr, DecidableEq

/-- Embedding of DAAService.execute_job (daa_service.py lines 610-664).
The sampler and estimator branches dispatch the worker asynchronously
(thread pool submit or spawned process) and return ok immediately, so
they perform no further synchronous store write; the worker itself is
modelled by executeSamplerV2 and executeEstimatorV2 below. -/
def executeJob (store : Store) (job : JobRecord) (now : String) :
    Except DAAError ExecuteJobResult :=
  match job.program_id with
  | none => .error (.KeyError "program_id")
  | some program_id =>
    if program_id.length = 0 then
      match jobStatus store job (some "Failed") none (some "No Program") (some 1300) false now with
      | .error e => .error e
      | .ok sr => .ok { ok := false, store := sr.1, trace := [sr.1] }
    else
      let job1 := { job with usage := some none }
      match jobStatus store job1 (some "Running") none none none true now with
      | .error e => .error e
      | .ok sr =>
        let s1 := sr.1
        let merged := sr.2
        if program_id = "sampler" then
          .ok { ok := true, store := s1, trace := [s1] }
        else if program_id = "estimator" then
          .ok { ok := true, store := s1, trace := [s1] }
        else
          -- the job dict passed here was mutated in place by the Running
          -- create above, hence equals the merged record
          match jobStatus s1 merged (some "Failed") none
              (some ("Unknown Program: " ++ program_id)) none false now with
          | .error e => .error e
          | .ok sr2 => .ok { ok := false, store := sr2.1, trace := [s1, sr2.1] }

/-- The deserialized job input payload as far as the worker's validation
inspects it: presence of the pubs key and the value of the version key.
The circuit contents are owned by the external SDK. -/
structure PrimitiveInput where
  has_pubs : Bool
  version : Option Int := none
  deriving Repr, DecidableEq

/-- The input validation of execute_samplerV2 (daa_service.py lines
706-715), returning the ValueError message on failure.  inputRepr stands
for the Python str() of the input dict interpolated into the message. -/
def samplerValidate (input : PrimitiveInput) (inputRepr : String) : Option String :=
  if ¬ input.has_pubs then
    some ("no pubs in this input: " ++ inputRepr)
  else if input.version.isNone then
    some ("no version in this input: " ++ inputRepr)
  else if input.version ≠ some 2 then
    some ("For SamplerV2, version should always be 2: " ++ inputRepr)
  else
    none

/-- The input validation of execute_estimatorV2 (daa_service.py lines
829-838). -/
def estimatorValidate (input : PrimitiveInput) (inputRepr : String) : Option String :=
  if ¬ input.has_pubs then
    some ("no pubs in this input: " ++ inputRepr)
  else if input.version.isNone then
    some ("no version in this input: " ++ inputRepr)
  else if input.version ≠ some 2 then
    some ("For EstimatorV2, version should always be 2: " ++ inputRepr)
  else
    none

/-- str() of the ValueError raised by the expected-status check of
_job_status (daa_service.py lines 524-526). -/
def statusNotExpectedMessage (job_id actual expected : String) : String :=
  "status is not expected: id=" ++ job_id ++ ", status=" ++ actual ++
    ", expected=" ++ expected

/-- The except branch of the worker (daa_service.py lines 792-796 and
903-907): job_status(job, Failed, reason_message=str(ex),
reason_code=5203).  This write cannot raise (create is false and no
expected_prev_status is passed), so the fallback arm is unreachable. -/
def workerFailWrite (store : Store) (job : JobRecord) (msg : String) (now : String) : Store :=
  match jobStatus store job (some "Failed") none (some msg) (some 5203) false now with
  | .ok sr => sr.1
  | .error _ => store

/-- Outcome of the external Aer primitive run together with result
serialization and upload (owned by the external SDK / shared storage):
either some step raised with a message, or the run finished with the
accumulated usage in nanoseconds and the upload succeeded. -/
inductive RunOutcome where
  | raised (msg : String)
  | finished (usage_nanoseconds : Int)
  deriving Repr, DecidableEq

/-- Store-visible behaviour of execute_samplerV2 (daa_service.py lines
684-805), the asynchronous worker, run against the job dict captured at
dispatch.  External effects are parameters: fetchError is the message of
an exception raised while resolving storage, fetching or deserializing
the input (none on success, in which case input is the deserialized
payload); runOutcome describes the Aer run and result upload.  The log
upload of the finally block does not touch the job store.  Every raised
exception is caught by the except branch and recorded as a Failed
transition with reason code 5203. -/
def executeSamplerV2 (store : Store) (job : JobRecord)
    (fetchError : Option String) (input : PrimitiveInput) (inputRepr : String)
    (runOutcome : RunOutcome) (now : String) : Store :=
  match fetchError with
  | some msg => workerFailWrite store job msg now
  | none =>
    match samplerValidate input inputRepr with
    | some msg => workerFailWrite store job msg now
    | none =>
      match runOutcome with
      | .raised msg => workerFailWrite store job msg now
      | .finished usage =>
        let job1 := { job with usage := some (some usage) }
        match jobStatus store job1 (some "Completed") (some "Running") none none false now with
        | .ok sr => sr.1
        | .error (.StatusNotExpectedError jid actual expected) =>
            -- the ValueError is caught by the except branch; the job dict
            -- was already mutated by the attempted Completed transition
            -- before the check raised
            workerFailWrite store (mergeJob job1 "Completed" none none false now)
              (statusNotExpectedMessage jid actual expected) now
        | .error _ => store

/-- Store-visible behaviour of execute_estimatorV2 (daa_service.py lines
806-915); identical store flow to the sampler worker apart from the
validation message. -/
def executeEstimatorV2 (store : Store) (job : JobRecord)
    (fetchError : Option String) (input : PrimitiveInput) (inputRepr : String)
    (runOutcome : RunOutcome) (now : String) : Store :=
  match fetchError with
  | some msg => workerFailWrite store job msg now
  | none =>
    match estimatorValidate input inputRepr with
    | some msg => workerFailWrite store job msg now
    | none =>
      match runOutcome with
      | .raised msg => workerFailWrite store job msg now
      | .finished usage =>
        let job1 := { job with usage := some (some usage) }
        match jobStatus store job1 (some "Completed") (some "Running") none none false now with
        | .ok sr => sr.1
        | .error (.StatusNotExpectedError jid actual expected) =>
            workerFailWrite store (mergeJob job1 "Completed" none none false now)
              (statusNotExpectedMessage jid actual expected) now
        | .error _ => store

/-- Default max execution lanes (consts.py line 23); run_job reads it
from request.app.daa_max_execution_lanes, which api.py initializes from
the config with this default. -/
def DEFAULT_MAX_EXECUTION_LANES : Nat := 5

/-- Embedding of the run_job facade handler (v1/job.py lines 121-147)
after token verification: backend availability check (HTTP 400),
execution-lane admission gate over get_jobs counting records whose
backend equals the requested one, then execute_job; ok false maps to
InvalidInputError and ok true to the 204 response (the store after
submission). -/
def runJob (store : Store) (availableBackends : List String) (maxLanes : Nat)
    (job : JobRecord) (now : String) : Except DAAError Store :=
  if ¬ (job.backend.getD "" ∈ availableBackends) then
    .error (.BackendNotAvailable (job.backend.getD ""))
  else
    match getJobs store with
    | .error e => .error e
    | .ok jobs =>
      let num_lanes := jobs.countP (fun j => j.backend = job.backend)
      if num_lanes ≥ maxLanes then
        .error (.ExecutionLanesLimitReachedError (job.backend.getD ""))
      else
        match executeJob store job now with
        | .error e => .error e
        | .ok res =>
          if res.ok then .ok res.store
          else .error (.InvalidInputError "Invalid program_id specified.")

/-! ## File layer

The byte-level mechanics of the status-file writes in _job_status
(daa_service.py lines 515-529).  File contents are modelled as character
lists.  json.dump writes at the current position; mode w truncates on
open, while mode r+ keeps the existing content, and the code calls
f.truncate() only when expected_prev_status is truthy. -/

/-- JSON escaping of a single character: quote and backslash get a
backslash escape. -/
def jsonEscapeChar (c : Char) : List Char :=
  if c = '"' then ['\\', '"'] else if c = '\\' then ['\\', '\\'] else [c]

/-- JSON string escaping for the quote and backslash characters. -/
def jsonEscape (s : String) : String :=
  String.mk ((s.data.map jsonEscapeChar).flatten)

/-- A JSON string literal. -/
def jsonStr (s : String) : String := "\"" ++ jsonEscape s ++ "\""

/-- json.dump of a record dict with the default separators, the record
keys in a fixed canonical order (a Python dict preserves insertion
order; the canonical order fixes one representative serialization). -/
def serializeRecord (r : JobRecord) : String :=
  let strField := fun (k : String) (v : Option String) =>
    match v with
    | none => ([] : List String)
    | some s => [jsonStr k ++ ": " ++ jsonStr s]
  let intField := fun (k : String) (v : Option Int) =>
    match v with
    | none => ([] : List String)
    | some n => [jsonStr k ++ ": " ++ toString n]
  let usageField :=
    match r.usage with
    | none => ([] : List String)
    | some none => [jsonStr "usage" ++ ": \x7b\x7d"]
    | some (some n) =>
        [jsonStr "usage" ++ ": \x7b" ++ jsonStr "quantum_nanoseconds" ++ ": " ++
          toString n ++ "\x7d"]
  let fields :=
    [jsonStr "id" ++ ": " ++ jsonStr r.id] ++
    strField "backend" r.backend ++
    strField "program_id" r.program_id ++
    strField "log_level" r.log_level ++
    intField "timeout_secs" r.timeout_secs ++
    usageField ++
    strField "status" r.status ++
    strField "created_time" r.created_time ++
    strField "end_time" r.end_time ++
    strField "reason_message" r.reason_message ++
    intField "reason_code" r.reason_code
  "\x7b" ++ String.intercalate ", " fields ++ "\x7d"

/-- The character content of the serialized record. -/
def serializedChars (r : JobRecord) : List Char := (serializeRecord r).data

/-- Content of a file after a write of newText at position 0 with no
truncation (the mode r+ path without expected_prev_status): the old
content keeps whatever tail extends beyond the written text. -/
def posZeroWrite (oldContent newText : List Char) : List Char :=
  newText ++ oldContent.drop newText.length

/-- The non-create update branch of _job_status at the file level
(daa_service.py lines 518-529), for a status file currently holding the
serialization of prev.  Under a truthy expected_prev_status the code
loads the previous record, checks its status (raising ValueError on
mismatch), writes the merged record from position 0 and truncates;
otherwise it writes the merged record from position 0 and never
truncates. -/
def updateFileContent (expected_prev_status : Option String)
    (prev merged : JobRecord) : Except DAAError (List Char) :=
  if pyTruthy expected_prev_status then
    if prev.status = expected_prev_status then
      .ok (serializedChars merged)
    else
      .error (.StatusNotExpectedError merged.id (prev.status.getD "")
        (expected_prev_status.getD ""))
  else
    .ok (posZeroWrite (serializedChars prev) (serializedChars merged))

/-! ## Reachable stores

The store states reachable from a fresh jobs directory through the
service operations, used to state store-wide invariants. -/

/-- A job dict as the facade hands it to execute_job: v1.models.Job has
exactly the fields id, backend, program_id, log_level, timeout_secs and
storage, and run_job dumps it with exclude_none, so the submitted dict
carries no status, no timestamps, no reasons and no usage. -/
def SubmittedJob (job : JobRecord) : Prop :=
  job.backend.isSome = true ∧ job.program_id.isSome = true ∧
  job.usage = none ∧ job.status = none ∧ job.created_time = none ∧
  job.end_time = none ∧ job.reason_message = none ∧ job.reason_code = none

/-- Stores reachable from a fresh jobs directory: submission through
execute_job, the asynchronous workers (run against whatever job dict the
dispatch captured and whatever the external world returned), cancel and
delete.  Operations that raise leave the store unchanged. -/
inductive Reachable : Store → Prop
  | empty : Reachable []
  | submit {s : Store} {job : JobRecord} {now : String} {res : ExecuteJobResult} :
      Reachable s → SubmittedJob job → executeJob s job now = .ok res →
      Reachable res.store
  | samplerWorker {s : Store} (job : JobRecord) (fetchError : Option String)
      (input : PrimitiveInput) (inputRepr : String) (run : RunOutcome) (now : String) :
      Reachable s → Reachable (executeSamplerV2 s job fetchError input inputRepr run now)
  | estimatorWorker {s : Store} (job : JobRecord) (fetchError : Option String)
      (input : PrimitiveInput) (inputRepr : String) (run : RunOutcome) (now : String) :
      Reachable s → Reachable (executeEstimatorV2 s job fetchError input inputRepr run now)
  | cancel {s s' : Store} {job_id now : String} :
      Reachable s → cancelJob s job_id now = .ok s' → Reachable s'
  | delete {s s' : Store} {job_id : String} :
      Reachable s → deleteJob s job_id = .ok s' → Reachable s'

/-- The record-level invariant of every stored record: the end_time key
is present exactly on the terminal statuses, and the stored status is one
of the four statuses the service ever writes (in particular never the NA
sentinel). -/
def GoodRec (r : JobRecord) : Prop :=
  (r.end_time.isSome = true ↔ r.status.getD "" ∈ terminalStatuses) ∧
  r.status.getD "" ∈ "Running" :: terminalStatuses

/-- Store-wide version of GoodRec. -/
def EndTimeInv (s : Store) : Prop := ∀ kv ∈ s, GoodRec kv.2

/-! ## Helper lemmas -/

theorem Store.mem_set {s : Store} {job_id : String} {r : JobRecord}
    {kv : String × JobRecord} (h : kv ∈ Store.set s job_id r) :
    kv = (job_id, r) ∨ kv ∈ s := by
  induction s with
  | nil => simp [Store.set] at h; exact Or.inl h
  | cons hd tl ih =>
    simp only [Store.set] at h
    split at h
    · rcases List.mem_cons.mp h with h | h
      · exact Or.inl h
      · exact Or.inr (List.mem_cons_of_mem _ h)
    · rcases List.mem_cons.mp h with h | h
      · exact Or.inr (h ▸ List.mem_cons_self _ _)
      · rcases ih h with h | h
        · exact Or.inl h
        · exact Or.inr (List.mem_cons_of_mem _ h)

theorem Store.mem_erase {s : Store} {job_id : String} {kv : String × JobRecord}
    (h : kv ∈ Store.erase s job_id) : kv ∈ s := by
  induction s with
  | nil => simp [Store.erase] at h
  | cons hd tl ih =>
    simp only [Store.erase] at h
    split at h
    · exact List.mem_cons_of_mem _ h
    · rcases List.mem_cons.mp h with h | h
      · exact h ▸ List.mem_cons_self _ _
      · exact List.mem_cons_of_mem _ (ih h)

theorem mergeJob_status (job : JobRecord) (st : String) (rm : Option String)
    (rc : Option Int) (c : Bool) (now : String) :
    (mergeJob job st rm rc c now).status = some st := by
  simp only [mergeJob]
  split_ifs <;> rfl

theorem mergeJob_id (job : JobRecord) (st : String) (rm : Option String)
    (rc : Option Int) (c : Bool) (now : String) :
    (mergeJob job st rm rc c now).id = job.id := by
  simp only [mergeJob]
  split_ifs <;> rfl

theorem mergeJob_end_time_terminal {st : String} (job : JobRecord) (rm : Option String)
    (rc : Option Int) (c : Bool) (now : String) (h : st ∈ terminalStatuses) :
    (mergeJob job st rm rc c now).end_time = some now := by
  simp only [mergeJob]
  split_ifs <;> rfl

theorem mergeJob_end_time_not_terminal {st : String} (job : JobRecord) (rm : Option String)
    (rc : Option Int) (c : Bool) (now : String) (h : st ∉ terminalStatuses) :
    (mergeJob job st rm rc c now).end_time = job.end_time := by
  simp only [mergeJob]
  split_ifs <;> rfl

theorem mergeJob_created_time (job : JobRecord) (st : String) (rm : Option String)
    (rc : Option Int) (c : Bool) (now : String) :
    (mergeJob job st rm rc c now).created_time =
      if c ∧ st = "Running" then some now else job.created_time := by
  simp only [mergeJob]
  split_ifs <;> rfl

theorem goodRec_mergeJob {job : JobRecord} {st : String} {rm : Option String}
    {rc : Option Int} {c : Bool} {now : String}
    (h : st ∈ terminalStatuses ∨ (st = "Running" ∧ job.end_time = none)) :
    GoodRec (mergeJob job st rm rc c now) := by
  unfold GoodRec
  rw [mergeJob_status]
  by_cases hterm : st ∈ terminalStatuses
  · rw [mergeJob_end_time_terminal job rm rc c now hterm]
    constructor
    · simpa using hterm
    · simp only [Option.getD_some]
      exact List.mem_cons_of_mem _ hterm
  · rw [mergeJob_end_time_not_terminal job rm rc c now hterm]
    rcases h with h | ⟨hrun, hnone⟩
    · exact absurd h hterm
    · constructor
      · simp only [hnone, Option.isSome_none, Option.getD_some]
        simpa using hterm
      · simp only [Option.getD_some, hrun]
        exact List.mem_cons_self _ _

theorem endTimeInv_set {s : Store} {job_id : String} {r : JobRecord}
    (hs : EndTimeInv s) (hr : GoodRec r) : EndTimeInv (Store.set s job_id r) := by
  intro kv hkv
  rcases Store.mem_set hkv with h | h
  · rw [h]
    exact hr
  · exact hs kv h

theorem endTimeInv_erase {s : Store} {job_id : String} (hs : EndTimeInv s) :
    EndTimeInv (Store.erase s job_id) :=
  fun kv hkv => hs kv (Store.mem_erase hkv)

/-- Preservation of the end_time invariant by a single write through
_job_status: the written status is terminal, or the job dict being
written carries no end_time. -/
theorem endTimeInv_jobStatus {s : Store} {job : JobRecord} {st : String}
    {exp rm : Option String} {rc : Option Int} {c : Bool} {now : String}
    {s' : Store} {r : JobRecord}
    (hs : EndTimeInv s)
    (hgood : st ∈ terminalStatuses ∨ (st = "Running" ∧ job.end_time = none))
    (hok : jobStatus s job (some st) exp rm rc c now = .ok (s', r)) :
    EndTimeInv s' := by
  unfold jobStatus at hok
  split at hok
  · -- read path: store unchanged
    split at hok <;> · injection hok with h; injection h with h1 h2; exact h1 ▸ hs
  · split at hok
    · exact absurd hok (by simp)
    · split at hok
      · injection hok with h
        injection h with h1 h2
        exact h1 ▸ endTimeInv_set hs (goodRec_mergeJob hgood)
      · split at hok
        · split at hok
          · injection hok with h
            injection h with h1 h2
            exact h1 ▸ endTimeInv_set hs (goodRec_mergeJob hgood)
          · exact absurd hok (by simp)
        · injection hok with h
          injection h with h1 h2
          exact h1 ▸ endTimeInv_set hs (goodRec_mergeJob hgood)

theorem endTimeInv_workerFailWrite {s : Store} {job : JobRecord} {msg now : String}
    (hs : EndTimeInv s) : EndTimeInv (workerFailWrite s job msg now) := by
  unfold workerFailWrite
  split
  · next sr heq =>
      obtain ⟨s', r⟩ := sr
      exact endTimeInv_jobStatus hs (Or.inl (by decide)) heq
  · exact hs

theorem endTimeInv_executeSamplerV2 {s : Store} {job : JobRecord}
    {fetchError : Option String} {input : PrimitiveInput} {inputRepr : String}
    {run : RunOutcome} {now : String} (hs : EndTimeInv s) :
    EndTimeInv (executeSamplerV2 s job fetchError input inputRepr run now) := by
  unfold executeSamplerV2
  split
  · exact endTimeInv_workerFailWrite hs
  · split
    · exact endTimeInv_workerFailWrite hs
    · split
      · exact endTimeInv_workerFailWrite hs
      · dsimp only
        split
        · next sr heq =>
            obtain ⟨s', r⟩ := sr
            exact endTimeInv_jobStatus hs (Or.inl (by decide)) heq
        · exact endTimeInv_workerFailWrite hs
        · exact hs

theorem endTimeInv_executeEstimatorV2 {s : Store} {job : JobRecord}
    {fetchError : Option String} {input : PrimitiveInput} {inputRepr : String}
    {run : RunOutcome} {now : String} (hs : EndTimeInv s) :
    EndTimeInv (executeEstimatorV2 s job fetchError input inputRepr run now) := by
  unfold executeEstimatorV2
  split
  · exact endTimeInv_workerFailWrite hs
  · split
    · exact endTimeInv_workerFailWrite hs
    · split
      · exact endTimeInv_workerFailWrite hs
      · dsimp only
        split
        · next sr heq =>
            obtain ⟨s', r⟩ := sr
            exact endTimeInv_jobStatus hs (Or.inl (by decide)) heq
        · exact endTimeInv_workerFailWrite hs
        · exact hs

theorem endTimeInv_executeJob {s : Store} {job : JobRecord} {now : String}
    {res : ExecuteJobResult} (hs : EndTimeInv s) (hj : job.end_time = none)
    (hok : executeJob s job now = .ok res) : EndTimeInv res.store := by
  unfold executeJob at hok
  dsimp only at hok
  split at hok
  · exact absurd hok (by simp)
  · split at hok
    · -- empty program id: single Failed write
      split at hok
      · exact absurd hok (by simp)
      · next sr heq =>
          obtain ⟨s1, r1⟩ := sr
          injection hok with h
          subst h
          exact endTimeInv_jobStatus hs (Or.inl (by decide)) heq
    · split at hok
      · exact absurd hok (by simp)
      · next sr heq =>
          obtain ⟨s1, r1⟩ := sr
          have hs1 : EndTimeInv s1 :=
            endTimeInv_jobStatus hs (Or.inr ⟨rfl, by simpa using hj⟩) heq
          split at hok
          · injection hok with h
            subst h
            exact hs1
          · split at hok
            · injection hok with h
              subst h
              exact hs1
            · split at hok
              · exact absurd hok (by simp)
              · next sr2 heq2 =>
                  obtain ⟨s2, r2⟩ := sr2
                  injection hok with h
                  subst h
                  exact endTimeInv_jobStatus hs1 (Or.inl (by decide)) heq2

theorem endTimeInv_cancelJob {s s' : Store} {job_id now : String}
    (hs : EndTimeInv s) (hok : cancelJob s job_id now = .ok s') : EndTimeInv s' := by
  unfold cancelJob at hok
  dsimp only at hok
  split at hok
  · exact absurd hok (by simp)
  · split at hok
    · exact absurd hok (by simp)
    · split at hok
      · exact absurd hok (by simp)
      · next sr heq =>
          obtain ⟨s1, r1⟩ := sr
          injection hok with h
          subst h
          exact endTimeInv_jobStatus hs (Or.inl (by decide)) heq

theorem endTimeInv_deleteJob {s s' : Store} {job_id : String}
    (hs : EndTimeInv s) (hok : deleteJob s job_id = .ok s') : EndTimeInv s' := by
  unfold deleteJob at hok
  dsimp only at hok
  split at hok
  · exact absurd hok (by simp)
  · split at hok
    · exact absurd hok (by simp)
    · injection hok with h
      subst h
      exact endTimeInv_erase hs

theorem Store.lookup_set (s : Store) (k : String) (r : JobRecord) :
    Store.lookup (Store.set s k r) k = some r := by
  induction s with
  | nil => simp [Store.set, Store.lookup]
  | cons hd tl ih =>
    obtain ⟨k0, v0⟩ := hd
    simp only [Store.set]
    split
    · simp [Store.lookup]
    · next hne =>
        simp only [Store.lookup]
        rw [if_neg hne]
        exact ih

theorem Store.lookup_mem {s : Store} {k : String} {r : JobRecord}
    (h : Store.lookup s k = some r) : (k, r) ∈ s := by
  induction s with
  | nil => simp [Store.lookup] at h
  | cons hd tl ih =>
    obtain ⟨k0, v0⟩ := hd
    simp only [Store.lookup] at h
    split at h
    · next heq =>
        injection h with h
        subst heq h
        exact List.mem_cons_self _ _
    · exact List.mem_cons_of_mem _ (ih h)

theorem Store.mem_keys_set {s : Store} {k a : String} {r : JobRecord}
    (h : a ∈ (Store.set s k r).map Prod.fst) : a = k ∨ a ∈ s.map Prod.fst := by
  rcases List.mem_map.mp h with ⟨kv, hkv, rfl⟩
  rcases Store.mem_set hkv with h | h
  · left
    rw [h]
  · right
    exact List.mem_map_of_mem _ h

theorem Store.nodup_keys_set {s : Store} (k : String) (r : JobRecord)
    (h : (s.map Prod.fst).Nodup) : ((Store.set s k r).map Prod.fst).Nodup := by
  induction s with
  | nil => simp [Store.set]
  | cons hd tl ih =>
    obtain ⟨k0, v0⟩ := hd
    simp only [List.map_cons, List.nodup_cons] at h
    obtain ⟨hk0, htl⟩ := h
    simp only [Store.set]
    split
    · next heq =>
        subst heq
        simp only [List.map_cons, List.nodup_cons]
        exact ⟨hk0, htl⟩
    · next hne =>
        simp only [List.map_cons, List.nodup_cons]
        refine ⟨fun ha => ?_, ih htl⟩
        rcases Store.mem_keys_set ha with h | h
        · exact hne (h ▸ rfl)
        · exact hk0 h

theorem Store.erase_sublist (s : Store) (k : String) :
    (Store.erase s k).Sublist s := by
  induction s with
  | nil => simp [Store.erase]
  | cons hd tl ih =>
    obtain ⟨k0, v0⟩ := hd
    simp only [Store.erase]
    split
    · exact List.sublist_cons_of_sublist _ (List.Sublist.refl tl)
    · exact List.Sublist.cons₂ _ ih

theorem Store.lookup_eq_none_of_not_mem_keys {s : Store} {k : String}
    (h : k ∉ s.map Prod.fst) : Store.lookup s k = none := by
  induction s with
  | nil => rfl
  | cons hd tl ih =>
    obtain ⟨k0, v0⟩ := hd
    simp only [List.map_cons, List.mem_cons] at h
    push_neg at h
    simp only [Store.lookup]
    rw [if_neg (fun he => h.1 he.symm)]
    exact ih h.2

theorem Store.lookup_erase_self {s : Store} {k : String}
    (hnd : (s.map Prod.fst).Nodup) : Store.lookup (Store.erase s k) k = none := by
  induction s with
  | nil => rfl
  | cons hd tl ih =>
    obtain ⟨k0, v0⟩ := hd
    simp only [List.map_cons, List.nodup_cons] at hnd
    obtain ⟨hk0, htl⟩ := hnd
    simp only [Store.erase]
    split
    · next heq =>
        subst heq
        exact Store.lookup_eq_none_of_not_mem_keys hk0
    · next hne =>
        simp only [Store.lookup]
        rw [if_neg hne]
        exact ih htl

/-- Well-formedness of a jobs directory: file names are unique (a real
directory cannot hold two files of the same name) and each file's record
carries the file's job id in its id field (every write of the service
stores the record under its own id). -/
def WFStore (s : Store) : Prop :=
  (s.map Prod.fst).Nodup ∧ ∀ kv ∈ s, kv.2.id = kv.1

/-- Any successful _job_status call leaves the store unchanged (read
path) or writes the merged record under the job dict's id. -/
theorem jobStatus_ok_store {s : Store} {job : JobRecord} {stt exp rm : Option String}
    {rc : Option Int} {c : Bool} {now : String} {s' : Store} {r : JobRecord}
    (hok : jobStatus s job stt exp rm rc c now = .ok (s', r)) :
    s' = s ∨ s' = Store.set s job.id (mergeJob job (stt.getD "") rm rc c now) := by
  unfold jobStatus at hok
  split at hok
  · split at hok <;>
      · injection hok with h
        injection h with h1 h2
        exact Or.inl h1.symm
  · split at hok
    · exact absurd hok (by simp)
    · split at hok
      · injection hok with h
        injection h with h1 h2
        exact Or.inr h1.symm
      · split at hok
        · split at hok
          · injection hok with h
            injection h with h1 h2
            exact Or.inr h1.symm
          · exact absurd hok (by simp)
        · injection hok with h
          injection h with h1 h2
          exact Or.inr h1.symm

theorem wfStore_set {s : Store} {job : JobRecord} {st : String} {rm : Option String}
    {rc : Option Int} {c : Bool} {now : String} (hs : WFStore s) :
    WFStore (Store.set s job.id (mergeJob job st rm rc c now)) := by
  refine ⟨Store.nodup_keys_set _ _ hs.1, fun kv hkv => ?_⟩
  rcases Store.mem_set hkv with h | h
  · rw [h]
    exact mergeJob_id job st rm rc c now
  · exact hs.2 kv h

theorem wfStore_jobStatus {s : Store} {job : JobRecord} {stt exp rm : Option String}
    {rc : Option Int} {c : Bool} {now : String} {s' : Store} {r : JobRecord}
    (hs : WFStore s) (hok : jobStatus s job stt exp rm rc c now = .ok (s', r)) :
    WFStore s' := by
  rcases jobStatus_ok_store hok with h | h
  · exact h ▸ hs
  · exact h ▸ wfStore_set hs

theorem wfStore_erase {s : Store} {k : String} (hs : WFStore s) :
    WFStore (Store.erase s k) :=
  ⟨List.Nodup.sublist (List.Sublist.map _ (Store.erase_sublist s k)) hs.1,
    fun kv hkv => hs.2 kv (Store.mem_erase hkv)⟩

theorem wfStore_workerFailWrite {s : Store} {job : JobRecord} {msg now : String}
    (hs : WFStore s) : WFStore (workerFailWrite s job msg now) := by
  unfold workerFailWrite
  split
  · next sr heq =>
      obtain ⟨s', r⟩ := sr
      exact wfStore_jobStatus hs heq
  · exact hs

theorem wfStore_executeSamplerV2 {s : Store} {job : JobRecord}
    {fetchError : Option String} {input : PrimitiveInput} {inputRepr : String}
    {run : RunOutcome} {now : String} (hs : WFStore s) :
    WFStore (executeSamplerV2 s job fetchError input inputRepr run now) := by
  unfold executeSamplerV2
  split
  · exact wfStore_workerFailWrite hs
  · split
    · exact wfStore_workerFailWrite hs
    · split
      · exact wfStore_workerFailWrite hs
      · dsimp only
        split
        · next sr heq =>
            obtain ⟨s', r⟩ := sr
            exact wfStore_jobStatus hs heq
        · exact wfStore_workerFailWrite hs
        · exact hs

theorem wfStore_executeEstimatorV2 {s : Store} {job : JobRecord}
    {fetchError : Option String} {input : PrimitiveInput} {inputRepr : String}
    {run : RunOutcome} {now : String} (hs : WFStore s) :
    WFStore (executeEstimatorV2 s job fetchError input inputRepr run now) := by
  unfold executeEstimatorV2
  split
  · exact wfStore_workerFailWrite hs
  · split
    · exact wfStore_workerFailWrite hs
    · split
      · exact wfStore_workerFailWrite hs
      · dsimp only
        split
        · next sr heq =>
            obtain ⟨s', r⟩ := sr
            exact wfStore_jobStatus hs heq
        · exact wfStore_workerFailWrite hs
        · exact hs

theorem wfStore_executeJob {s : Store} {job : JobRecord} {now : String}
    {res : ExecuteJobResult} (hs : WFStore s)
    (hok : executeJob s job now = .ok res) : WFStore res.store := by
  unfold executeJob at hok
  dsimp only at hok
  split at hok
  · exact absurd hok (by simp)
  · split at hok
    · split at hok
      · exact absurd hok (by simp)
      · next sr heq =>
          obtain ⟨s1, r1⟩ := sr
          injection hok with h
          subst h
          exact wfStore_jobStatus hs heq
    · split at hok
      · exact absurd hok (by simp)
      · next sr heq =>
          obtain ⟨s1, r1⟩ := sr
          have hs1 : WFStore s1 := wfStore_jobStatus hs heq
          split at hok
          · injection hok with h
            subst h
            exact hs1
          · split at hok
            · injection hok with h
              subst h
              exact hs1
            · split at hok
              · exact absurd hok (by simp)
              · next sr2 heq2 =>
                  obtain ⟨s2, r2⟩ := sr2
                  injection hok with h
                  subst h
                  exact wfStore_jobStatus hs1 heq2

theorem wfStore_cancelJob {s s' : Store} {job_id now : String}
    (hs : WFStore s) (hok : cancelJob s job_id now = .ok s') : WFStore s' := by
  unfold cancelJob at hok
  dsimp only at hok
  split at hok
  · exact absurd hok (by simp)
  · split at hok
    · exact absurd hok (by simp)
    · split at hok
      · exact absurd hok (by simp)
      · next sr heq =>
          obtain ⟨s1, r1⟩ := sr
          injection hok with h
          subst h
          exact wfStore_jobStatus hs heq

theorem wfStore_deleteJob {s s' : Store} {job_id : String}
    (hs : WFStore s) (hok : deleteJob s job_id = .ok s') : WFStore s' := by
  unfold deleteJob at hok
  dsimp only at hok
  split at hok
  · exact absurd hok (by simp)
  · split at hok
    · exact absurd hok (by simp)
    · injection hok with h
      subst h
      exact wfStore_erase hs

/-- Every reachable store is well-formed: unique file names, record ids
matching file names. -/
theorem wfStore_reachable {s : Store} (hs : Reachable s) : WFStore s := by
  induction hs with
  | empty => exact ⟨List.nodup_nil, fun kv hkv => absurd hkv (List.not_mem_nil kv)⟩
  | submit hr hsub hok ih => exact wfStore_executeJob ih hok
  | samplerWorker job fe input irepr run now hr ih => exact wfStore_executeSamplerV2 ih
  | estimatorWorker job fe input irepr run now hr ih => exact wfStore_executeEstimatorV2 ih
  | cancel hr hok ih => exact wfStore_cancelJob ih hok
  | delete hr hok ih => exact wfStore_deleteJob ih hok

theorem endTimeInv_reachable {s : Store} (hs : Reachable s) : EndTimeInv s := by
  induction hs with
  | empty => intro kv hkv; cases hkv
  | submit hr hsub hok ih => exact endTimeInv_executeJob ih hsub.2.2.2.2.2.1 hok
  | samplerWorker job fe input irepr run now hr ih => exact endTimeInv_executeSamplerV2 ih
  | estimatorWorker job fe input irepr run now hr ih => exact endTimeInv_executeEstimatorV2 ih
  | cancel hr hok ih => exact endTimeInv_cancelJob ih hok
  | delete hr hok ih => exact endTimeInv_deleteJob ih hok


/-! ## Backend registry: details, configuration and properties

Embedding of DAAService.get_backend_details, get_backend_configuration
and get_backend_properties (daa_service.py lines 297-457) over a small
model of Python/JSON values.  The simulated-device engines themselves are
external SDK objects; a registered backend is modelled by the two dicts
the service reads from it. -/

/-- A Python/JSON value as far as the backend configuration and
properties code inspects one.  The complex u_channel_lo scales are
carried as two integer components (the code only destructures .real and
.imag and repacks them); other numbers are integers, since the code
moves them around without arithmetic. -/
inductive PyVal where
  | str (s : String)
  | int (n : Int)
  | bool (b : Bool)
  | cplx (re im : Int)
  | list (xs : List PyVal)
  | dict (kvs : List (String × PyVal))
  | pynone

/-- A Python dict with string keys, in insertion order. -/
abbrev PyDict := List (String × PyVal)

/-- d[k] read: the first binding of k, if any. -/
def PyDict.get? (d : PyDict) (k : String) : Option PyVal :=
  match d with
  | [] => none
  | (k0, v) :: rest => if k0 = k then some v else PyDict.get? rest k

/-- d[k] = v assignment: update the binding in place, else append (the
Python dict semantics). -/
def PyDict.set (d : PyDict) (k : String) (v : PyVal) : PyDict :=
  match d with
  | [] => [(k, v)]
  | (k0, v0) :: rest =>
      if k0 = k then (k, v) :: rest else (k0, v0) :: PyDict.set rest k v

/-- The keys of a dict, in order. -/
def PyDict.keys (d : PyDict) : List String := d.map Prod.fst

/-- Python truthiness of a value, as used by the gates filter. -/
def PyVal.truthy : PyVal → Bool
  | .str s => s ≠ ""
  | .int n => n ≠ 0
  | .bool b => b
  | .cplx re im => ¬ (re = 0 ∧ im = 0)
  | .list xs => ¬ xs.isEmpty
  | .dict kvs => ¬ kvs.isEmpty
  | .pynone => false

/-- A registered backend engine as the service consumes it: the
configuration dict (backend.configuration().to_dict() for the aer
backend, _get_conf_dict_from_json() otherwise — both carry the same
top-level data) and the properties dict (backend.properties().to_dict()).
Both are produced by the external SDK. -/
structure BackendEngine where
  confDict : PyDict
  propsDict : PyDict

/-- The backend registry self._available_backends. -/
abbrev Registry := List (String × BackendEngine)

/-- Name resolution in the registry. -/
def registryGet (registry : Registry) (backend_name : String) : Option BackendEngine :=
  match registry with
  | [] => none
  | (k, v) :: rest => if k = backend_name then some v else registryGet rest backend_name

/-- The fixed whitelist DAAService._CONFIG_NAMES (daa_service.py lines
311-359). -/
def CONFIG_NAMES : List String :=
  ["backend_name", "sample_name", "backend_version", "n_qubits", "basis_gates",
    "coupling_map", "gates", "local", "simulator", "conditional", "memory",
    "max_shots", "max_experiments", "n_registers", "register_map", "configurable",
    "credits_required", "online_date", "display_name", "description", "tags",
    "default_rep_delay", "dynamic_reprate_enabled", "measure_esp_enabled",
    "supported_instructions", "supported_features", "quantum_volume",
    "processor_type", "qubit_lo_range", "meas_lo_range", "timing_constraints",
    "open_pulse", "n_uchannels", "hamiltonian", "u_channel_lo", "meas_levels",
    "dt", "dtm", "rep_times", "meas_map", "channel_bandwidth", "meas_kernels",
    "discriminators", "acquisition_latency", "conditional_latency",
    "parametric_pulses", "channels"]

/-- Embedding of DAAService.get_backend_details (lines 297-309). -/
def getBackendDetails (registry : Registry) (inclOptValues : Bool)
    (backend_name : String) : Except DAAError PyDict :=
  match registryGet registry backend_name with
  | none => .error (.BackendNotFoundError backend_name)
  | some _ =>
      .ok ([("name", .str backend_name), ("status", .str "online")] ++
        (if inclOptValues then
          [("message", .str ("backend " ++ backend_name)),
            ("version", .str "1.0.0")]
        else []))

/-- One subitem of u_channel_lo: a dict with q and a complex scale that
is replaced by the [real, imag] pair (lines 379-388).  A plain number
also has .real and .imag in Python. -/
def uChannelLoSubitem : PyVal → Except DAAError PyVal
  | .dict kvs =>
      match PyDict.get? kvs "q" with
      | none => .error (.KeyError "q")
      | some q =>
        match PyDict.get? kvs "scale" with
        | none => .error (.KeyError "scale")
        | some (.cplx re im) =>
            .ok (.dict [("q", q), ("scale", .list [.int re, .int im])])
        | some (.int n) =>
            .ok (.dict [("q", q), ("scale", .list [.int n, .int 0])])
        | some _ => .error (.TypeError "scale has no real component")
  | _ => .error (.TypeError "u_channel_lo subitem is not a dict")

def uChannelLoSubitems : List PyVal → Except DAAError (List PyVal)
  | [] => .ok []
  | v :: rest =>
      match uChannelLoSubitem v with
      | .error e => .error e
      | .ok v2 =>
          match uChannelLoSubitems rest with
          | .error e => .error e
          | .ok vs => .ok (v2 :: vs)

def uChannelLoItem : PyVal → Except DAAError PyVal
  | .list subitems =>
      match uChannelLoSubitems subitems with
      | .error e => .error e
      | .ok vs => .ok (.list vs)
  | _ => .error (.TypeError "u_channel_lo item is not iterable")

def uChannelLoItems : List PyVal → Except DAAError (List PyVal)
  | [] => .ok []
  | v :: rest =>
      match uChannelLoItem v with
      | .error e => .error e
      | .ok v2 =>
          match uChannelLoItems rest with
          | .error e => .error e
          | .ok vs => .ok (v2 :: vs)

/-- The whole u_channel_lo comprehension. -/
def uChannelLoFix : PyVal → Except DAAError PyVal
  | .list items =>
      match uChannelLoItems items with
      | .error e => .error e
      | .ok vs => .ok (.list vs)
  | _ => .error (.TypeError "u_channel_lo is not iterable")

/-- The fixed keys the aer branch of get_backend_configuration assigns
over the engine's configuration dict (lines 363-376). -/
def aerConfigFixups (d : PyDict) : PyDict :=
  let d := PyDict.set d "qubit_lo_range" (.list [.list [.int 0, .int 0]])
  let d := PyDict.set d "meas_lo_range" (.list [.list [.int 0, .int 0]])
  let d := PyDict.set d "n_uchannels" (.int 0)
  let d := PyDict.set d "hamiltonian" (.dict [("h_latex", .str "")])
  let d := PyDict.set d "u_channel_lo" (.list [])
  let d := PyDict.set d "meas_levels" (.list [])
  let d := PyDict.set d "dt" (.int 0)
  let d := PyDict.set d "dtm" (.int 0)
  let d := PyDict.set d "rep_times" (.list [])
  let d := PyDict.set d "meas_kernels" (.list [])
  let d := PyDict.set d "discriminators" (.list [])
  let d := PyDict.set d "open_pulse" (.bool false)
  d

/-- The filter on one gate: gate["qasm_def"] and gate["parameters"]
(line 396), with Python's short-circuit and truthiness. -/
def gateKeep : PyVal → Except DAAError Bool
  | .dict kvs =>
      match PyDict.get? kvs "qasm_def" with
      | none => .error (.KeyError "qasm_def")
      | some q =>
          if ¬ q.truthy then .ok false
          else
            match PyDict.get? kvs "parameters" with
            | none => .error (.KeyError "parameters")
            | some p => .ok p.truthy
  | _ => .error (.TypeError "gate is not subscriptable")

def filterGates : List PyVal → Except DAAError (List PyVal)
  | [] => .ok []
  | g :: rest =>
      match gateKeep g with
      | .error e => .error e
      | .ok keep =>
          match filterGates rest with
          | .error e => .error e
          | .ok kept => .ok (if keep then g :: kept else kept)

/-- The gates list comprehension of line 395-397. -/
def gatesFilter : PyVal → Except DAAError PyVal
  | .list gs =>
      match filterGates gs with
      | .error e => .error e
      | .ok kept => .ok (.list kept)
  | _ => .error (.TypeError "gates is not iterable")

/-- Embedding of DAAService.get_backend_configuration (lines 361-399):
resolve the backend (BackendNotFoundError if absent), apply the aer
fixups or the u_channel_lo conversion, keep only the top-level keys in
the _CONFIG_NAMES whitelist, then re-filter the gates entry. -/
def getBackendConfiguration (registry : Registry) (backend_name : String) :
    Except DAAError PyDict :=
  match registryGet registry backend_name with
  | none => .error (.BackendNotFoundError backend_name)
  | some backend =>
    let confRes : Except DAAError PyDict :=
      if backend_name = "aer" then
        .ok (aerConfigFixups backend.confDict)
      else
        match PyDict.get? backend.confDict "u_channel_lo" with
        | none => .error (.KeyError "u_channel_lo")
        | some u =>
          match uChannelLoFix u with
          | .error e => .error e
          | .ok u2 => .ok (PyDict.set backend.confDict "u_channel_lo" u2)
    match confRes with
    | .error e => .error e
    | .ok config_dict =>
      let ret := config_dict.filter (fun kv => decide (kv.1 ∈ CONFIG_NAMES))
      match PyDict.get? ret "gates" with
      | none => .error (.KeyError "gates")
      | some gates =>
        match gatesFilter gates with
        | .error e => .error e
        | .ok gates2 => .ok (PyDict.set ret "gates" gates2)

/-- One Nduv dict of the synthetic aer qubit data (lines 410-441). -/
def aerQubitNduv (nduv_name unit : String) (value : PyVal) : PyVal :=
  .dict [("date", .str "2000-01-01 00:00:00Z"), ("name", .str nduv_name),
    ("unit", .str unit), ("value", value)]

/-- The five synthetic Nduv entries per qubit of the aer branch. -/
def aerQubitEntries : PyVal :=
  .list [aerQubitNduv "T1" "µs" (.int 0), aerQubitNduv "T2" "µs" (.int 0),
    aerQubitNduv "frequency" "GHz" (.int 0),
    aerQubitNduv "readout_error" "" (.int 0),
    aerQubitNduv "operational" "" (.int 1)]

/-- props.get(fill_key) in {None, ""}: absent, None or empty string. -/
def needsFill : Option PyVal → Bool
  | none => true
  | some .pynone => true
  | some (.str s) => s = ""
  | some _ => false

/-- One iteration of the backend_name / backend_version fill loop
(lines 451-453): when the properties value is missing, None or empty,
copy the configuration value (KeyError if the configuration lacks it
too). -/
def fillKey (props conf : PyDict) (k : String) : Except DAAError PyDict :=
  if needsFill (PyDict.get? props k) then
    match PyDict.get? conf k with
    | none => .error (.KeyError k)
    | some v => .ok (PyDict.set props k v)
  else .ok props

/-- props["qubits"][0][0]["date"] (line 456). -/
def qubitsFirstDate (props : PyDict) : Except DAAError PyVal :=
  match PyDict.get? props "qubits" with
  | none => .error (.KeyError "qubits")
  | some (.list (q0 :: _)) =>
      match q0 with
      | .list (n0 :: _) =>
          match n0 with
          | .dict kvs =>
              match PyDict.get? kvs "date" with
              | none => .error (.KeyError "date")
              | some v => .ok v
          | _ => .error (.TypeError "nduv is not subscriptable")
      | .list [] => .error (.IndexError "qubits[0]")
      | _ => .error (.TypeError "qubits[0] is not subscriptable")
  | some (.list []) => .error (.IndexError "qubits")
  | some _ => .error (.TypeError "qubits is not subscriptable")

/-- Embedding of DAAService.get_backend_properties (lines 401-457).  The
aer branch synthesizes a fixed-key dict from the configuration; every
other backend's branch takes the engine's properties dict as a whole,
fills backend_name and backend_version from the configuration when they
are missing or empty, overwrites last_update_date with the first qubit
Nduv date, and returns the dict otherwise unmodified — there is no
whitelist filtering on this path. -/
def getBackendProperties (registry : Registry) (backend_name : String) :
    Except DAAError PyDict :=
  match registryGet registry backend_name with
  | none => .error (.BackendNotFoundError backend_name)
  | some backend =>
    if backend_name = "aer" then
      let conf := backend.confDict
      match PyDict.get? conf "backend_name" with
      | none => .error (.KeyError "backend_name")
      | some bn =>
        match PyDict.get? conf "backend_version" with
        | none => .error (.KeyError "backend_version")
        | some bv =>
          match PyDict.get? conf "n_qubits" with
          | none => .error (.KeyError "n_qubits")
          | some (.int nq) =>
            match PyDict.get? conf "gates" with
            | none => .error (.KeyError "gates")
            | some gates =>
              .ok [("backend_name", bn), ("backend_version", bv),
                ("last_update_date", .str "2000-01-01 00:00:00Z"),
                ("qubits", .list (List.replicate nq.toNat aerQubitEntries)),
                ("gates", gates), ("general", .list [])]
          | some _ => .error (.TypeError "n_qubits is not an int")
    else
      match getBackendConfiguration registry backend_name with
      | .error e => .error e
      | .ok config_dict =>
        match fillKey backend.propsDict config_dict "backend_name" with
        | .error e => .error e
        | .ok props1 =>
          match fillKey props1 config_dict "backend_version" with
          | .error e => .error e
          | .ok props2 =>
            match qubitsFirstDate props2 with
            | .error e => .error e
            | .ok dte => .ok (PyDict.set props2 "last_update_date" dte)

/-! ## Claim theorems -/

/-- C2: in every reachable jobs directory, every stored job record has an
end_time key exactly when its status is one of the terminal statuses
Completed, Failed or Cancelled; a record whose status is Running has no
end_time. -/
theorem C2_end_time_iff_terminal {s : Store} (hs : Reachable s) :
    ∀ kv ∈ s,
      (kv.2.end_time.isSome = true ↔ kv.2.status.getD "" ∈ terminalStatuses) ∧
      (kv.2.status = some "Running" → kv.2.end_time = none) := by
  intro kv hkv
  have h := (endTimeInv_reachable hs kv hkv).1
  refine ⟨h, fun hr => ?_⟩
  refine Option.not_isSome_iff_eq_none.mp (fun hsome => ?_)
  have hmem := h.mp hsome
  rw [hr] at hmem
  simp [terminalStatuses] at hmem

/-- A well-formed job submission, as produced by the facade from the
pydantic request model, used by the concrete witnesses below. -/
def c2Job : JobRecord :=
  { id := "j1", backend := some "fake_brisbane", program_id := some "sampler",
    log_level := some "warning", timeout_secs := some 3600 }

/-- The Running record execute_job creates for c2Job at time t0. -/
def c2Rec : JobRecord :=
  mergeJob { c2Job with usage := some none } "Running" none none true "t0"

theorem c2Job_submitted : SubmittedJob c2Job :=
  ⟨rfl, rfl, rfl, rfl, rfl, rfl, rfl, rfl⟩

theorem reachable_c2Store : Reachable [("j1", c2Rec)] :=
  @Reachable.submit [] c2Job "t0"
    { ok := true, store := [("j1", c2Rec)], trace := [[("j1", c2Rec)]] }
    Reachable.empty c2Job_submitted rfl

theorem C2_witness :
    ((c2Rec.end_time.isSome = true ↔ c2Rec.status.getD "" ∈ terminalStatuses) ∧
      (c2Rec.status = some "Running" → c2Rec.end_time = none)) :=
  C2_end_time_iff_terminal reachable_c2Store ("j1", c2Rec)
    (List.mem_singleton.mpr rfl)

/-- The write path of _job_status with create=True on an id with no
existing file: the merged record is written in mode w. -/
theorem jobStatus_create_absent {store : Store} {job : JobRecord} {st : String}
    {exp rm : Option String} {rc : Option Int} {now : String}
    (hst : st ≠ "") (hnew : Store.lookup store job.id = none) :
    jobStatus store job (some st) exp rm rc true now =
      .ok (Store.set store job.id (mergeJob job st rm rc true now),
        mergeJob job st rm rc true now) := by
  simp [jobStatus, pyTruthy, hst, hnew]

/-- The write path of _job_status with create=True on an id whose file
exists raises DuplicateJobError before any write. -/
theorem jobStatus_create_present {store : Store} {job : JobRecord} {st : String}
    {exp rm : Option String} {rc : Option Int} {now : String}
    (hst : st ≠ "") (hsome : (Store.lookup store job.id).isSome = true) :
    jobStatus store job (some st) exp rm rc true now =
      .error (.DuplicateJobError job.id) := by
  simp [jobStatus, pyTruthy, hst, hsome]

/-- C3: a create operation (job_status with create=True) on a fresh id
writes the full merged record; on an id whose file already exists it
raises DuplicateJobError without writing anything (raising leaves the
store unchanged in this model, as the Python raises before opening the
file); consequently a first create followed immediately by a second
create with the same id always fails with DuplicateJobError. -/
theorem C3_create_then_create_duplicate
    (store : Store) (job job2 : JobRecord) (st st2 : String)
    (exp rm exp2 rm2 : Option String) (rc rc2 : Option Int) (now now2 : String)
    (s1 : Store) (merged : JobRecord)
    (hid : job2.id = job.id) (hst : st ≠ "") (hst2 : st2 ≠ "")
    (h1 : jobStatus store job (some st) exp rm rc true now = .ok (s1, merged)) :
    merged = mergeJob job st rm rc true now ∧
    Store.lookup s1 job.id = some merged ∧
    jobStatus s1 job2 (some st2) exp2 rm2 rc2 true now2 =
      .error (.DuplicateJobError job2.id) ∧
    (∀ s0 : Store, (Store.lookup s0 job.id).isSome = true →
      jobStatus s0 job (some st) exp rm rc true now =
        .error (.DuplicateJobError job.id)) := by
  cases hlk : Store.lookup store job.id with
  | some prev =>
      rw [jobStatus_create_present hst (by rw [hlk]; rfl)] at h1
      exact absurd h1 (by simp)
  | none =>
      rw [jobStatus_create_absent hst hlk] at h1
      injection h1 with h
      injection h with hs1 hm
      subst hs1
      subst hm
      refine ⟨rfl, Store.lookup_set store job.id _, ?_, ?_⟩
      · apply jobStatus_create_present hst2
        rw [hid, Store.lookup_set]
        rfl
      · intro s0 hsome
        exact jobStatus_create_present hst hsome

/-- A duplicate submission id for the witness: the Running record of the
first create. -/
def c3Rec : JobRecord :=
  mergeJob c2Job "Running" none none true "t0"

theorem C3_witness :
    jobStatus [("j1", c3Rec)] c2Job (some "Running") none none none true "t1" =
      .error (.DuplicateJobError "j1") ∧
    Store.lookup [("j1", c3Rec)] "j1" = some c3Rec := by
  have h := C3_create_then_create_duplicate [] c2Job c2Job "Running" "Running"
    none none none none none none "t0" "t1" [("j1", c3Rec)] c3Rec
    rfl (by decide) (by decide) rfl
  exact ⟨h.2.2.1, h.2.1⟩

theorem getJobStatus_none {store : Store} {job_id : String}
    (h : Store.lookup store job_id = none) :
    getJobStatus store job_id = naRecord job_id := by
  simp [getJobStatus, h]

theorem getJobStatus_some {store : Store} {job_id : String} {r : JobRecord}
    (h : Store.lookup store job_id = some r) :
    getJobStatus store job_id = r := by
  simp [getJobStatus, h]

/-- The update path of _job_status (create=False) on an existing file
with a truthy expected_prev_status: the merged record is written when the
on-disk status matches, else ValueError. -/
theorem jobStatus_update_expected {store : Store} {job prev : JobRecord}
    {st est : String} {rm : Option String} {rc : Option Int} {now : String}
    (hst : st ≠ "") (hest : est ≠ "")
    (hprev : Store.lookup store job.id = some prev) :
    jobStatus store job (some st) (some est) rm rc false now =
      (if prev.status = some est then
        .ok (Store.set store job.id (mergeJob job st rm rc false now),
          mergeJob job st rm rc false now)
      else
        .error (.StatusNotExpectedError job.id (prev.status.getD "") est)) := by
  simp [jobStatus, pyTruthy, hst, hest, hprev]

/-- C4: cancel_job raises JobNotFoundError when no record exists (the
status read returns the NA sentinel), JobNotCancellableError when the
stored status is terminal, and on success the stored status was Running
immediately before the call and is Cancelled afterwards (the transition
is written with expected_prev_status Running). -/
theorem C4_cancel_job (store : Store) (job_id now : String) (hw : WFStore store) :
    (Store.lookup store job_id = none →
      cancelJob store job_id now = .error (.JobNotFoundError job_id)) ∧
    (∀ r, Store.lookup store job_id = some r →
      r.status.getD "" ∈ terminalStatuses →
      cancelJob store job_id now = .error (.JobNotCancellableError job_id)) ∧
    (∀ s', cancelJob store job_id now = .ok s' →
      (getJobStatus store job_id).status = some "Running" ∧
      (getJobStatus s' job_id).status = some "Cancelled") := by
  refine ⟨fun hnone => ?_, fun r hr hterm => ?_, fun s' hok => ?_⟩
  · unfold cancelJob
    rw [getJobStatus_none hnone]
    rfl
  · have hna : r.status ≠ some "NA" := by
      intro he
      rw [he] at hterm
      simp [terminalStatuses] at hterm
    unfold cancelJob
    rw [getJobStatus_some hr]
    dsimp only
    rw [if_neg hna, if_pos hterm]
  · unfold cancelJob at hok
    dsimp only at hok
    cases hlk : Store.lookup store job_id with
    | none =>
        rw [getJobStatus_none hlk] at hok
        exact absurd hok (by simp [naRecord])
    | some r =>
        rw [getJobStatus_some hlk] at hok
        split at hok
        · exact absurd hok (by simp)
        · split at hok
          · exact absurd hok (by simp)
          · have hrid : r.id = job_id := hw.2 (job_id, r) (Store.lookup_mem hlk)
            rw [jobStatus_update_expected (by decide) (by decide)
              (by rw [hrid]; exact hlk)] at hok
            split at hok
            · exact absurd hok (by simp)
            · next sr heq =>
                injection hok with h
                subst h
                split at heq
                · next hrun =>
                    injection heq with h2
                    subst h2
                    refine ⟨by rw [getJobStatus_some hlk]; exact hrun, ?_⟩
                    rw [getJobStatus_some
                      (by rw [← hrid]; exact Store.lookup_set store r.id _)]
                    exact mergeJob_status r "Cancelled" none none false now
                · exact absurd heq (by simp)

/-- The record c2Rec after a successful cancellation at time t1, for the
witness below. -/
def c4CancelledRec : JobRecord := mergeJob c2Rec "Cancelled" none none false "t1"

theorem C4_witness :
    cancelJob [] "j0" "t1" = .error (.JobNotFoundError "j0") ∧
    ((getJobStatus [("j1", c2Rec)] "j1").status = some "Running" ∧
      (getJobStatus [("j1", c4CancelledRec)] "j1").status = some "Cancelled") := by
  have h0 := C4_cancel_job [] "j0" "t1" ⟨List.nodup_nil, by simp⟩
  have h1 := C4_cancel_job [("j1", c2Rec)] "j1" "t1" ⟨by decide, by decide⟩
  exact ⟨h0.1 rfl, h1.2.2 [("j1", c4CancelledRec)] rfl⟩

/-- C5: delete_job raises JobNotFoundError when no record exists,
UnableToDeleteJobInNonTerminalStateError when the stored status is not
terminal, and on success removes the backing file, so a subsequent
status read returns the NA sentinel and a repeated delete raises
JobNotFoundError.  The hypothesis restricts to stores the service can
actually produce (which in particular contain no record with the NA
sentinel status and have unique file names). -/
theorem C5_delete_job (store : Store) (job_id : String) (hreach : Reachable store) :
    (Store.lookup store job_id = none →
      deleteJob store job_id = .error (.JobNotFoundError job_id)) ∧
    (∀ r, Store.lookup store job_id = some r →
      r.status.getD "" ∉ terminalStatuses →
      deleteJob store job_id = .error (.UnableToDeleteJobInNonTerminalStateError job_id)) ∧
    (∀ s', deleteJob store job_id = .ok s' →
      getJobStatus s' job_id = naRecord job_id ∧
      deleteJob s' job_id = .error (.JobNotFoundError job_id)) := by
  refine ⟨fun hnone => ?_, fun r hr hterm => ?_, fun s' hok => ?_⟩
  · unfold deleteJob
    rw [getJobStatus_none hnone]
    rfl
  · have hval := (endTimeInv_reachable hreach (job_id, r) (Store.lookup_mem hr)).2
    have hrun : r.status.getD "" = "Running" := by
      rcases List.mem_cons.mp hval with h | h
      · exact h
      · exact absurd h hterm
    have hna : r.status ≠ some "NA" := by
      intro he
      rw [he] at hrun
      exact absurd hrun (by decide)
    unfold deleteJob
    rw [getJobStatus_some hr]
    dsimp only
    rw [if_neg hna, if_pos hterm]
  · unfold deleteJob at hok
    dsimp only at hok
    cases hlk : Store.lookup store job_id with
    | none =>
        rw [getJobStatus_none hlk] at hok
        exact absurd hok (by simp [naRecord])
    | some r =>
        rw [getJobStatus_some hlk] at hok
        split at hok
        · exact absurd hok (by simp)
        · split at hok
          · exact absurd hok (by simp)
          · injection hok with h
            subst h
            have herase : Store.lookup (Store.erase store job_id) job_id = none :=
              Store.lookup_erase_self (wfStore_reachable hreach).1
            refine ⟨getJobStatus_none herase, ?_⟩
            unfold deleteJob
            rw [getJobStatus_none herase]
            rfl

/-- A submission whose program id is the empty string, driving the
direct-to-Failed path of execute_job; used by concrete witnesses. -/
def c5Job : JobRecord :=
  { id := "j5", backend := some "fake_brisbane", program_id := some "",
    log_level := some "warning", timeout_secs := some 3600 }

/-- The Failed record execute_job writes for c5Job at time t0. -/
def c5Rec : JobRecord :=
  mergeJob c5Job "Failed" (some "No Program") (some 1300) false "t0"

theorem reachable_c5Store : Reachable [("j5", c5Rec)] :=
  @Reachable.submit [] c5Job "t0"
    { ok := false, store := [("j5", c5Rec)], trace := [[("j5", c5Rec)]] }
    Reachable.empty ⟨rfl, rfl, rfl, rfl, rfl, rfl, rfl, rfl⟩ rfl

theorem C5_witness :
    deleteJob [("j1", c2Rec)] "j1" =
      .error (.UnableToDeleteJobInNonTerminalStateError "j1") ∧
    (getJobStatus [] "j5" = naRecord "j5" ∧
      deleteJob [] "j5" = .error (.JobNotFoundError "j5")) := by
  have h1 := C5_delete_job [("j1", c2Rec)] "j1" reachable_c2Store
  have h2 := C5_delete_job [("j5", c5Rec)] "j5" reachable_c5Store
  exact ⟨h1.2.1 c2Rec rfl (by decide), h2.2.2 [] rfl⟩

theorem mergeJob_reason_message_truthy {rm : Option String} (job : JobRecord)
    (st : String) (rc : Option Int) (c : Bool) (now : String)
    (h : pyTruthy rm = true) :
    (mergeJob job st rm rc c now).reason_message = rm := by
  simp only [mergeJob]
  split_ifs <;> simp_all

theorem mergeJob_reason_code_truthy {rc : Option Int} (job : JobRecord)
    (st : String) (rm : Option String) (c : Bool) (now : String)
    (h : pyTruthyInt rc = true) :
    (mergeJob job st rm rc c now).reason_code = rc := by
  simp only [mergeJob]
  split_ifs <;> simp_all

/-- The update path of _job_status (create=False) with no
expected_prev_status never raises: whether or not the file exists, the
merged record is written. -/
theorem jobStatus_update_noexpected {store : Store} {job : JobRecord} {st : String}
    {rm : Option String} {rc : Option Int} {now : String} (hst : st ≠ "") :
    jobStatus store job (some st) none rm rc false now =
      .ok (Store.set store job.id (mergeJob job st rm rc false now),
        mergeJob job st rm rc false now) := by
  unfold jobStatus
  cases Store.lookup store job.id <;> simp [pyTruthy, hst]

/-- C10: execute_job on a job whose program_id is the empty string
returns ok=False and persists a Failed record with reason "No Program"
and code 1300 that carries no created_time (created_time is stamped only
by a create with status Running), and that record breaks the
precondition of get_jobs, whose sort key accesses created_time and
raises KeyError. -/
theorem C10_empty_program_id (store : Store) (job : JobRecord) (now : String)
    (res : ExecuteJobResult)
    (hpid : job.program_id = some "") (hct : job.created_time = none)
    (hok : executeJob store job now = .ok res) :
    res.ok = false ∧
    Store.lookup res.store job.id =
      some (mergeJob job "Failed" (some "No Program") (some 1300) false now) ∧
    (mergeJob job "Failed" (some "No Program") (some 1300) false now).status =
      some "Failed" ∧
    (mergeJob job "Failed" (some "No Program") (some 1300) false now).reason_message =
      some "No Program" ∧
    (mergeJob job "Failed" (some "No Program") (some 1300) false now).reason_code =
      some 1300 ∧
    (mergeJob job "Failed" (some "No Program") (some 1300) false now).created_time =
      none ∧
    getJobs res.store = .error (.KeyError "created_time") := by
  unfold executeJob at hok
  rw [hpid] at hok
  dsimp only at hok
  rw [jobStatus_update_noexpected (by decide)] at hok
  injection hok with h
  subst h
  have hctm : (mergeJob job "Failed" (some "No Program") (some 1300) false now).created_time
      = none := by
    rw [mergeJob_created_time]
    simpa using hct
  refine ⟨rfl, Store.lookup_set store job.id _,
    mergeJob_status job "Failed" (some "No Program") (some 1300) false now,
    mergeJob_reason_message_truthy job "Failed" (some 1300) false now (by decide),
    mergeJob_reason_code_truthy job "Failed" (some "No Program") false now (by decide),
    hctm, ?_⟩
  unfold getJobs
  dsimp only
  have hmem : (mergeJob job "Failed" (some "No Program") (some 1300) false now) ∈
      (Store.set store job.id
        (mergeJob job "Failed" (some "No Program") (some 1300) false now)).map
        (fun kv => kv.2) :=
    List.mem_map_of_mem _ (Store.lookup_mem (Store.lookup_set store job.id _))
  have hall : ¬ (((Store.set store job.id
      (mergeJob job "Failed" (some "No Program") (some 1300) false now)).map
      (fun kv => kv.2)).all (fun r => r.created_time.isSome) = true) := by
    intro hallt
    have := List.all_eq_true.mp hallt _ hmem
    rw [hctm] at this
    simp at this
  rw [if_neg hall]

theorem C10_witness :
    Store.lookup [("j5", c5Rec)] "j5" = some c5Rec ∧
    c5Rec.status = some "Failed" ∧
    c5Rec.reason_message = some "No Program" ∧
    c5Rec.reason_code = some 1300 ∧
    c5Rec.created_time = none ∧
    getJobs [("j5", c5Rec)] = .error (.KeyError "created_time") := by
  have h := C10_empty_program_id [] c5Job "t0"
    { ok := false, store := [("j5", c5Rec)], trace := [[("j5", c5Rec)]] }
    rfl rfl rfl
  exact ⟨h.2.1, h.2.2.1, h.2.2.2.1, h.2.2.2.2.1, h.2.2.2.2.2.1, h.2.2.2.2.2.2⟩

/-- A submission with the unrecognized program kind foo, for the C6
analysis. -/
def c6Job : JobRecord :=
  { id := "j6", backend := some "fake_brisbane", program_id := some "foo",
    log_level := some "warning", timeout_secs := some 3600 }

/-- The Running record execute_job creates for c6Job before noticing the
unknown program kind. -/
def c6Running : JobRecord :=
  mergeJob { c6Job with usage := some none } "Running" none none true "t0"

/-- The Failed record the unknown-program branch then writes over it. -/
def c6Failed : JobRecord :=
  mergeJob c6Running "Failed" (some "Unknown Program: foo") none false "t0"

/-- The full result of executing c6Job on an empty store. -/
def c6Res : ExecuteJobResult :=
  { ok := false, store := [("j6", c6Failed)],
    trace := [[("j6", c6Running)], [("j6", c6Failed)]] }

/-- C6 counterexample: execute_job on a job with the unrecognized
program kind foo does create a record with status Running (the
unconditional create at daa_service.py line 624 precedes the program-id
dispatch), visible as the first store state of the call's write trace,
before the record is overwritten with Failed — so the claim that no
Running record is ever created for an unrecognized kind is false. -/
theorem C6_counterexample :
    executeJob [] c6Job "t0" = .ok c6Res ∧
    c6Res.trace.head? = some [("j6", c6Running)] ∧
    c6Running.status = some "Running" ∧
    Store.lookup [("j6", c6Running)] "j6" = some c6Running :=
  ⟨rfl, rfl, rfl, rfl⟩

/-- C6 amended: execute_job on a job whose program kind is neither
sampler nor estimator returns ok=False, and by the time the call
returns the stored record has status Failed; however, for a nonempty
unrecognized kind a record with status Running is transiently created
first and immediately overwritten (see the counterexample); only the
empty program id goes straight to Failed. -/
theorem C6_unknown_program_failed (store : Store) (job : JobRecord)
    (pid now : String) (res : ExecuteJobResult)
    (hpid : job.program_id = some pid)
    (hsampler : pid ≠ "sampler") (hestimator : pid ≠ "estimator")
    (hok : executeJob store job now = .ok res) :
    res.ok = false ∧
    (getJobStatus res.store job.id).status = some "Failed" := by
  unfold executeJob at hok
  rw [hpid] at hok
  dsimp only at hok
  by_cases hlen : pid.length = 0
  · rw [if_pos hlen, jobStatus_update_noexpected (by decide)] at hok
    injection hok with h
    subst h
    refine ⟨rfl, ?_⟩
    rw [getJobStatus_some (Store.lookup_set store job.id _)]
    exact mergeJob_status job "Failed" (some "No Program") (some 1300) false now
  · rw [if_neg hlen] at hok
    cases hlk : Store.lookup store job.id with
    | some prev =>
        rw [@jobStatus_create_present store
          { job with program_id := some pid, usage := some none } "Running"
          none none none now (by decide) (by rw [hlk]; rfl)] at hok
        exact absurd hok (by simp)
    | none =>
        rw [@jobStatus_create_absent store
          { job with program_id := some pid, usage := some none } "Running"
          none none none now (by decide) hlk] at hok
        dsimp only at hok
        rw [if_neg hsampler, if_neg hestimator] at hok
        rw [jobStatus_update_noexpected (by decide)] at hok
        injection hok with h
        subst h
        refine ⟨rfl, ?_⟩
        have hmid : (mergeJob { job with program_id := some pid, usage := some none }
            "Running" none none true now).id = job.id :=
          mergeJob_id _ "Running" none none true now
        rw [getJobStatus_some (by rw [← hmid]; exact Store.lookup_set _ _ _)]
        exact mergeJob_status _ "Failed" (some ("Unknown Program: " ++ pid)) none false now

theorem C6_witness :
    c6Res.ok = false ∧ (getJobStatus c6Res.store "j6").status = some "Failed" :=
  C6_unknown_program_failed [] c6Job "foo" "t0" c6Res rfl (by decide) (by decide) rfl

/-- The deserialized input payload declaring version 1, for the C7
analysis. -/
def c7Input : PrimitiveInput := { has_pubs := true, version := some 1 }

/-- The full result of submitting the sampler job c2Job on an empty
store. -/
def c7Res : ExecuteJobResult :=
  { ok := true, store := [("j1", c2Rec)], trace := [[("j1", c2Rec)]] }

/-- C7 counterexample: a sampler submission whose input payload declares
version 1 is not rejected synchronously — execute_job returns ok=True
and persists a record with status Running (the payload is only fetched
and validated later, inside the asynchronous worker), refuting the claim
that the validation failure reaches the submitter before any record
reaches Running. -/
theorem C7_counterexample :
    executeJob [] c2Job "t0" = .ok c7Res ∧
    c7Res.ok = true ∧
    Store.lookup c7Res.store "j1" = some c2Rec ∧
    c2Rec.status = some "Running" ∧
    samplerValidate c7Input "inp" =
      some "For SamplerV2, version should always be 2: inp" :=
  ⟨rfl, rfl, rfl, rfl, rfl⟩

/-- C7 amended: for a sampler submission whose input payload declares a
version other than 2, submission itself succeeds (ok=True) and persists
a Running record; the version check only runs inside the asynchronous
worker, which then transitions the record to Failed with reason code
5203 — the submitter learns of the failure only by polling. -/
theorem C7_version_validation_async (store : Store) (job : JobRecord)
    (now now2 inputRepr : String) (res : ExecuteJobResult)
    (input : PrimitiveInput) (run : RunOutcome)
    (hpid : job.program_id = some "sampler")
    (hok : executeJob store job now = .ok res)
    (hpubs : input.has_pubs = true) (hver : input.version.isSome = true)
    (hv2 : input.version ≠ some 2) :
    res.ok = true ∧
    (getJobStatus res.store job.id).status = some "Running" ∧
    (getJobStatus
      (executeSamplerV2 res.store (getJobStatus res.store job.id) none input
        inputRepr run now2) job.id).status = some "Failed" ∧
    (getJobStatus
      (executeSamplerV2 res.store (getJobStatus res.store job.id) none input
        inputRepr run now2) job.id).reason_code = some 5203 := by
  unfold executeJob at hok
  rw [hpid] at hok
  dsimp only at hok
  rw [if_neg (by decide : ¬ (String.length "sampler" = 0))] at hok
  cases hlk : Store.lookup store job.id with
  | some prev =>
      rw [@jobStatus_create_present store
        { job with program_id := some "sampler", usage := some none } "Running"
        none none none now (by decide) (by rw [hlk]; rfl)] at hok
      exact absurd hok (by simp)
  | none =>
      rw [@jobStatus_create_absent store
        { job with program_id := some "sampler", usage := some none } "Running"
        none none none now (by decide) hlk] at hok
      dsimp only at hok
      rw [if_pos rfl] at hok
      injection hok with h
      subst h
      have hmid : (mergeJob { job with program_id := some "sampler", usage := some none }
          "Running" none none true now).id = job.id :=
        mergeJob_id _ "Running" none none true now
      have hgs : getJobStatus
          (Store.set store job.id
            (mergeJob { job with program_id := some "sampler", usage := some none }
              "Running" none none true now))
          job.id =
          mergeJob { job with program_id := some "sampler", usage := some none }
            "Running" none none true now :=
        getJobStatus_some (Store.lookup_set store job.id _)
      refine ⟨rfl, by rw [hgs]; exact mergeJob_status _ "Running" none none true now, ?_⟩
      rw [hgs]
      have hnotnone : ¬ input.version.isNone = true := by
        simp only [Option.isNone_iff_eq_none]
        intro hn
        rw [hn] at hver
        exact absurd hver (by decide)
      have hval : samplerValidate input inputRepr =
          some ("For SamplerV2, version should always be 2: " ++ inputRepr) := by
        unfold samplerValidate
        rw [if_neg (by simp [hpubs]), if_neg hnotnone, if_pos hv2]
      unfold executeSamplerV2
      rw [hval]
      dsimp only
      unfold workerFailWrite
      rw [jobStatus_update_noexpected (by decide)]
      dsimp only
      constructor
      · rw [getJobStatus_some (by rw [← hmid]; exact Store.lookup_set _ _ _)]
        exact mergeJob_status _ "Failed" _ (some 5203) false now2
      · rw [getJobStatus_some (by rw [← hmid]; exact Store.lookup_set _ _ _)]
        exact mergeJob_reason_code_truthy _ "Failed" _ false now2 (by decide)

theorem C7_witness :
    c7Res.ok = true ∧
    (getJobStatus c7Res.store "j1").status = some "Running" ∧
    (getJobStatus
      (executeSamplerV2 c7Res.store (getJobStatus c7Res.store "j1") none
        c7Input "inp" (RunOutcome.finished 0) "t1") "j1").status = some "Failed" ∧
    (getJobStatus
      (executeSamplerV2 c7Res.store (getJobStatus c7Res.store "j1") none
        c7Input "inp" (RunOutcome.finished 0) "t1") "j1").reason_code = some 5203 :=
  C7_version_validation_async [] c2Job "t0" "t1" "inp" c7Res c7Input
    (RunOutcome.finished 0) rfl rfl rfl rfl (by decide)

/-- The shape of any exception raised by _job_status: either the
DuplicateJobError of the create path or the ValueError of the
expected-status check. -/
theorem jobStatus_error_shape {store : Store} {job : JobRecord}
    {stt exp rm : Option String} {rc : Option Int} {c : Bool} {now : String}
    {e : DAAError} (h : jobStatus store job stt exp rm rc c now = .error e) :
    e = .DuplicateJobError job.id ∨
    ∃ a b, e = .StatusNotExpectedError job.id a b := by
  unfold jobStatus at h
  split at h
  · split at h <;> simp at h
  · split at h
    · injection h with h
      exact Or.inl h.symm
    · split at h
      · simp at h
      · split at h
        · split at h
          · simp at h
          · injection h with h
            exact Or.inr ⟨_, _, h.symm⟩
        · simp at h

/-- execute_job never raises the execution-lanes error: its exceptions
are the KeyError on a missing program_id and the _job_status errors. -/
theorem executeJob_no_lanes_error {store : Store} {job : JobRecord} {now x : String} :
    executeJob store job now ≠ .error (.ExecutionLanesLimitReachedError x) := by
  unfold executeJob
  dsimp only
  split
  · simp
  · split
    · split
      · next e heq =>
          intro hcontra
          injection hcontra with h
          rcases jobStatus_error_shape heq with h2 | ⟨a, b, h2⟩ <;> simp [h2] at h
      · simp
    · split
      · next e heq =>
          intro hcontra
          injection hcontra with h
          rcases jobStatus_error_shape heq with h2 | ⟨a, b, h2⟩ <;> simp [h2] at h
      · split
        · simp
        · split
          · simp
          · split
            · next e heq =>
                intro hcontra
                injection hcontra with h
                rcases jobStatus_error_shape heq with h2 | ⟨a, b, h2⟩ <;>
                  simp [h2] at h
            · simp

/-- C8: the facade's admission gate counts every stored job record whose
backend equals the requested backend, with no status filter, and rejects
with ExecutionLanesLimitReachedError exactly when that count is at or
above the configured per-backend maximum, whose default is 5; below the
maximum (in particular for a different backend) the submission passes
the gate.  The created_time hypothesis is the precondition of the
get_jobs sort, satisfied by every facade-created record. -/
theorem C8_admission_gate (store : Store) (availableBackends : List String)
    (maxLanes : Nat) (job : JobRecord) (b now : String)
    (hb : job.backend = some b) (hav : b ∈ availableBackends)
    (hct : ∀ kv ∈ store, kv.2.created_time.isSome = true) :
    (runJob store availableBackends maxLanes job now =
        .error (.ExecutionLanesLimitReachedError b) ↔
      maxLanes ≤ store.countP (fun kv => kv.2.backend = some b)) ∧
    DEFAULT_MAX_EXECUTION_LANES = 5 := by
  refine ⟨?_, rfl⟩
  have hgetJobs : getJobs store =
      .ok ((store.map (fun kv => kv.2)).mergeSort
        (fun a b => decide (a.created_time.getD "" ≤ b.created_time.getD ""))) := by
    unfold getJobs
    dsimp only
    rw [if_pos]
    exact List.all_eq_true.mpr (fun r hr => by
      rcases List.mem_map.mp hr with ⟨kv, hkv, rfl⟩
      exact hct kv hkv)
  have hcount : ((store.map (fun kv => kv.2)).mergeSort
      (fun a b => decide (a.created_time.getD "" ≤ b.created_time.getD ""))).countP
        (fun j => j.backend = some b) =
      store.countP (fun kv => kv.2.backend = some b) := by
    rw [List.Perm.countP_eq _ (List.mergeSort_perm _ _), List.countP_map]
    rfl
  unfold runJob
  rw [hb]
  rw [if_neg (by simpa using hav)]
  rw [hgetJobs]
  dsimp only
  rw [hcount]
  constructor
  · intro h
    by_contra hlt
    rw [if_neg (by simpa using hlt)] at h
    split at h
    · next e heq =>
        injection h with h2
        subst h2
        exact executeJob_no_lanes_error heq
    · split at h <;> simp at h
  · intro h
    rw [if_pos (by simpa using h)]
    rfl

/-- Five Running records on backend bk, filling the default lanes. -/
def c8Rec (n : String) : JobRecord :=
  { id := n, backend := some "bk", program_id := some "sampler",
    status := some "Running", created_time := some "t0" }

/-- The jobs directory with the default maximum of lanes occupied on
backend bk. -/
def c8Store : Store :=
  [("a", c8Rec "a"), ("b", c8Rec "b"), ("c", c8Rec "c"), ("d", c8Rec "d"),
    ("e", c8Rec "e")]

/-- A sixth submission against backend bk. -/
def c8Job : JobRecord :=
  { id := "f", backend := some "bk", program_id := some "sampler",
    log_level := some "warning", timeout_secs := some 3600 }

/-- The same submission against the other backend bd. -/
def c8JobD : JobRecord :=
  { id := "f", backend := some "bd", program_id := some "sampler",
    log_level := some "warning", timeout_secs := some 3600 }

theorem C8_witness :
    runJob c8Store ["bk", "bd"] DEFAULT_MAX_EXECUTION_LANES c8Job "t1" =
      .error (.ExecutionLanesLimitReachedError "bk") ∧
    runJob c8Store ["bk", "bd"] DEFAULT_MAX_EXECUTION_LANES c8JobD "t1" ≠
      .error (.ExecutionLanesLimitReachedError "bd") := by
  have hk := C8_admission_gate c8Store ["bk", "bd"] DEFAULT_MAX_EXECUTION_LANES
    c8Job "bk" "t1" rfl (by decide) (by decide)
  have hd := C8_admission_gate c8Store ["bk", "bd"] DEFAULT_MAX_EXECUTION_LANES
    c8JobD "bd" "t1" rfl (by decide) (by decide)
  exact ⟨hk.1.mpr (by decide), fun hcon => absurd (hd.1.mp hcon) (by decide)⟩

/-- C1 amended: the non-create update branch of _job_status leaves the
status file holding exactly the serialization of the merged record
whenever an expected_prior_status check was requested (that branch calls
truncate) or the new serialization is at least as long as the previous
content; when no check is requested and the new serialization is
shorter, the previous content's tail survives past the written text (no
truncate is called), leaving a torn file (see the counterexample). -/
theorem C1_update_not_torn (expected_prev_status : Option String)
    (prev merged : JobRecord) (content : List Char)
    (hlen : pyTruthy expected_prev_status = true ∨
      (serializedChars prev).length ≤ (serializedChars merged).length)
    (hok : updateFileContent expected_prev_status prev merged = .ok content) :
    content = serializedChars merged := by
  unfold updateFileContent at hok
  rcases hlen with hexp | hlen
  · rw [if_pos hexp] at hok
    split at hok
    · injection hok with h
      exact h.symm
    · simp at hok
  · split at hok
    · split at hok
      · injection hok with h
        exact h.symm
      · simp at hok
    · injection hok with h
      rw [← h]
      unfold posZeroWrite
      rw [List.drop_eq_nil_of_le hlen, List.append_nil]

/-- An on-disk Failed record with a long reason message. -/
def c1Prev : JobRecord :=
  { id := "j1", backend := some "fake_brisbane", program_id := some "sampler",
    usage := some none, status := some "Failed",
    created_time := some "2024-01-01T00:00:00Z",
    end_time := some "2024-01-01T00:00:01Z",
    reason_message := some "a long failure message from the first failed attempt",
    reason_code := some 5203 }

/-- A subsequent Failed write over it with a much shorter message. -/
def c1Merged : JobRecord := mergeJob c1Prev "Failed" (some "x") (some 5203) false "t1"

/-- The file content the no-truncate branch actually leaves behind. -/
def c1Torn : List Char :=
  posZeroWrite (serializedChars c1Prev) (serializedChars c1Merged)

set_option maxRecDepth 10000 in
/-- C1 counterexample: an update of an existing record without an
expected_prior_status check, whose new serialization is shorter than the
old file content, succeeds but leaves the file holding the new text
followed by the stale tail of the old content — not the serialization of
the merged record — because f.truncate() is only called in the
expected_prev_status branch (daa_service.py lines 528-529). -/
theorem C1_counterexample :
    updateFileContent none c1Prev c1Merged = .ok c1Torn ∧
    c1Torn ≠ serializedChars c1Merged ∧
    (serializedChars c1Merged).length < c1Torn.length :=
  ⟨rfl, by decide, by decide⟩

/-- A longer Failed record written over the Running record c2Rec. -/
def c1Grown : JobRecord :=
  mergeJob c2Rec "Failed"
    (some "simulation failed with a descriptive error") (some 5203) false "t1"

set_option maxRecDepth 10000 in
theorem C1_witness :
    updateFileContent none c2Rec c1Grown = .ok (serializedChars c1Grown) := by
  have h := C1_update_not_torn none c2Rec c1Grown
    (posZeroWrite (serializedChars c2Rec) (serializedChars c1Grown))
    (Or.inr (by decide)) rfl
  calc updateFileContent none c2Rec c1Grown
      = .ok (posZeroWrite (serializedChars c2Rec) (serializedChars c1Grown)) := rfl
    _ = .ok (serializedChars c1Grown) := by rw [h]

theorem PyDict.mem_keys_of_set {d : PyDict} {k a : String} {v : PyVal}
    (h : a ∈ PyDict.keys (PyDict.set d k v)) : a = k ∨ a ∈ PyDict.keys d := by
  induction d with
  | nil =>
      simp [PyDict.set, PyDict.keys] at h
      exact Or.inl h
  | cons hd tl ih =>
    obtain ⟨k0, v0⟩ := hd
    simp only [PyDict.set] at h
    split at h
    · next heq =>
        subst heq
        simp only [PyDict.keys, List.map_cons, List.mem_cons] at h ⊢
        rcases h with h | h
        · exact Or.inl h
        · exact Or.inr (Or.inr h)
    · simp only [PyDict.keys, List.map_cons, List.mem_cons] at h ⊢
      rcases h with h | h
      · exact Or.inr (Or.inl h)
      · rcases ih h with h | h
        · exact Or.inl h
        · exact Or.inr (Or.inr h)

theorem PyDict.mem_keys_preserved_by_set {d : PyDict} {k a : String} {v : PyVal}
    (h : a ∈ PyDict.keys d) : a ∈ PyDict.keys (PyDict.set d k v) := by
  induction d with
  | nil => simp [PyDict.keys] at h
  | cons hd tl ih =>
    obtain ⟨k0, v0⟩ := hd
    simp only [PyDict.keys, List.map_cons, List.mem_cons] at h
    simp only [PyDict.set]
    split
    · next heq =>
        subst heq
        simp only [PyDict.keys, List.map_cons, List.mem_cons]
        exact h
    · simp only [PyDict.keys, List.map_cons, List.mem_cons]
      rcases h with h | h
      · exact Or.inl h
      · exact Or.inr (ih h)

/-- The fill loop of get_backend_properties never drops a key of the
properties dict. -/
theorem fillKey_keys {props conf : PyDict} {k : String} {props2 : PyDict}
    (h : fillKey props conf k = .ok props2) :
    ∀ a ∈ PyDict.keys props, a ∈ PyDict.keys props2 := by
  unfold fillKey at h
  split at h
  · split at h
    · exact absurd h (by simp)
    · injection h with h2
      subst h2
      exact fun a ha => PyDict.mem_keys_preserved_by_set ha
  · injection h with h2
    subst h2
    exact fun a ha => ha

/-- C9 amended: for a name not in the registry, get_backend_details,
get_backend_configuration and get_backend_properties all raise
BackendNotFoundError; get_backend_details returns a dict with the fixed
keys name and status (plus message and version with optional fields
enabled); get_backend_configuration filters the engine configuration to
the _CONFIG_NAMES whitelist, dropping unrecognized keys; but
get_backend_properties for a non-aer backend is a passthrough of the
engine's properties dict — every engine key survives in the output, so
its unrecognized keys are NOT dropped (see the counterexample). -/
theorem C9_backend_ops (registry : Registry) (inclOptValues : Bool)
    (backend_name : String) :
    (registryGet registry backend_name = none →
      getBackendDetails registry inclOptValues backend_name =
        .error (.BackendNotFoundError backend_name) ∧
      getBackendConfiguration registry backend_name =
        .error (.BackendNotFoundError backend_name) ∧
      getBackendProperties registry backend_name =
        .error (.BackendNotFoundError backend_name)) ∧
    (∀ d, getBackendDetails registry inclOptValues backend_name = .ok d →
      ∀ k ∈ PyDict.keys d, k ∈ ["name", "status", "message", "version"]) ∧
    (∀ d, getBackendConfiguration registry backend_name = .ok d →
      ∀ k ∈ PyDict.keys d, k ∈ CONFIG_NAMES) ∧
    (∀ engine d, registryGet registry backend_name = some engine →
      backend_name ≠ "aer" →
      getBackendProperties registry backend_name = .ok d →
      ∀ k ∈ PyDict.keys engine.propsDict, k ∈ PyDict.keys d) := by
  refine ⟨fun hnone => ⟨?_, ?_, ?_⟩, fun d hok k hk => ?_, fun d hok k hk => ?_,
    fun engine d hreg hne hok k hk => ?_⟩
  · unfold getBackendDetails
    rw [hnone]
  · unfold getBackendConfiguration
    rw [hnone]
  · unfold getBackendProperties
    rw [hnone]
  · unfold getBackendDetails at hok
    split at hok
    · exact absurd hok (by simp)
    · injection hok with h2
      subst h2
      cases inclOptValues
      · simp [PyDict.keys] at hk
        rcases hk with rfl | rfl <;> decide
      · simp [PyDict.keys] at hk
        rcases hk with rfl | rfl | rfl | rfl <;> decide
  · unfold getBackendConfiguration at hok
    split at hok
    · exact absurd hok (by simp)
    · dsimp only at hok
      split at hok
      · exact absurd hok (by simp)
      · split at hok
        · exact absurd hok (by simp)
        · split at hok
          · exact absurd hok (by simp)
          · injection hok with h2
            subst h2
            rcases PyDict.mem_keys_of_set hk with rfl | hk2
            · decide
            · rcases List.mem_map.mp hk2 with ⟨kv, hkv, rfl⟩
              have hp := (List.mem_filter.mp hkv).2
              exact of_decide_eq_true hp
  · unfold getBackendProperties at hok
    rw [hreg] at hok
    dsimp only at hok
    rw [if_neg hne] at hok
    split at hok
    · exact absurd hok (by simp)
    · split at hok
      · exact absurd hok (by simp)
      · next props1 heq1 =>
          split at hok
          · exact absurd hok (by simp)
          · next props2 heq2 =>
              split at hok
              · exact absurd hok (by simp)
              · injection hok with h2
                subst h2
                exact PyDict.mem_keys_preserved_by_set
                  (fillKey_keys heq2 k (fillKey_keys heq1 k hk))

/-- A registered backend whose engine reports an entirely unrecognized
top-level key in its properties dict. -/
def c9Engine : BackendEngine :=
  { confDict :=
      [("backend_name", .str "bk"), ("backend_version", .str "1"),
        ("u_channel_lo", .list []), ("gates", .list []), ("n_qubits", .int 2)],
    propsDict :=
      [("backend_name", .str "bk"), ("backend_version", .str "1"),
        ("qubits", .list [.list [.dict [("date", .str "2024-05-01")]]]),
        ("frobnicate", .str "entirely unrecognized")] }

def c9Registry : Registry := [("bk", c9Engine)]

/-- What get_backend_properties actually returns for that backend. -/
def c9PropsOut : PyDict :=
  [("backend_name", .str "bk"), ("backend_version", .str "1"),
    ("qubits", .list [.list [.dict [("date", .str "2024-05-01")]]]),
    ("frobnicate", .str "entirely unrecognized"),
    ("last_update_date", .str "2024-05-01")]

/-- C9 counterexample: get_backend_properties for a registered non-aer
backend returns the engine's properties dict whole: the unrecognized
top-level key frobnicate survives in the output, which therefore is not
filtered to any fixed whitelist of recognized keys, contradicting the
claim that all three operations drop unrecognized engine keys. -/
theorem C9_counterexample :
    getBackendProperties c9Registry "bk" = .ok c9PropsOut ∧
    "frobnicate" ∈ PyDict.keys c9PropsOut ∧
    "frobnicate" ∉ CONFIG_NAMES ∧
    "frobnicate" ∉ ["name", "status", "message", "version"] :=
  ⟨rfl, by decide, by decide, by decide⟩

theorem C9_witness :
    getBackendDetails c9Registry true "zz" = .error (.BackendNotFoundError "zz") ∧
    getBackendConfiguration c9Registry "zz" = .error (.BackendNotFoundError "zz") ∧
    getBackendProperties c9Registry "zz" = .error (.BackendNotFoundError "zz") ∧
    "frobnicate" ∈ PyDict.keys c9PropsOut := by
  have h := C9_backend_ops c9Registry true "zz"
  have h2 := C9_backend_ops c9Registry true "bk"
  obtain ⟨e1, e2, e3⟩ := h.1 rfl
  exact ⟨e1, e2, e3,
    h2.2.2.2 c9Engine c9PropsOut rfl (by decide) rfl "frobnicate" (by decide)⟩

end DaaSim
